import Mathlib

/-!
Verification development for the log15 workblock tracker.

The repository ships the React/TypeScript front end (SummaryView, PromptWindow,
TimelineChart, ArchiveView, WorkblockControl) together with a technical plan;
the Rust scheduler/accumulator backend is declared there but its source is not
part of this tree.  Front-end behaviour is embedded directly from the
TypeScript sources; the backend operations are modelled from the specification,
as marked on each definition.
-/

namespace Log15

/-- Whitespace test used by trimming, mirroring the JavaScript trim done in
PromptWindow before submitting. -/
def isWS (c : Char) : Bool := c = ' ' || c = '\t' || c = '\n' || c = '\r'

/-- Trim leading and trailing whitespace from a character list. -/
def trimChars (l : List Char) : List Char :=
  ((l.dropWhile isWS).reverse.dropWhile isWS).reverse

/-- Trim leading and trailing whitespace from a string (the semantics of the
JavaScript String.prototype.trim used on label input). -/
def strTrim (s : String) : String := String.mk (trimChars s.data)

/-- Bound a stored label to 50 characters, the bound used by the prompt input
field (PromptWindow, maxLength 50) and by the spec for stored labels. -/
def truncate50 (s : String) : String := String.mk (s.data.take 50)

/-- Interval status, from the intervals table schema. -/
inductive IntervalStatus
  | pending
  | recorded
  | auto_away
deriving DecidableEq

/-- Workblock status, from the workblocks table schema. -/
inductive WorkblockStatus
  | active
  | completed
  | cancelled
deriving DecidableEq

/-- Error taxonomy of the scheduler operations. -/
inductive SchedError
  | conflictError
  | notFoundError
  | validationError
  | storageError
deriving DecidableEq

/-- Three-state tray status derived by the Status Projector. -/
inductive TrayStatus
  | idle
  | active
  | summaryReady
deriving DecidableEq

/-- Workblock row.  Times and calendar dates are abstracted as naturals. -/
structure Workblock where
  id : Nat
  date : Nat
  start_time : Nat
  end_time : Option Nat := none
  duration_minutes : Nat
  status : WorkblockStatus
  is_archived : Bool := false
deriving DecidableEq

/-- Interval row, with a 1-based sequence number inside its workblock. -/
structure Interval where
  id : Nat
  workblock_id : Nat
  interval_number : Nat
  start_time : Nat
  end_time : Option Nat := none
  words : Option String := none
  status : IntervalStatus
deriving DecidableEq

/-- Modelled from the spec: total intervals for a workblock is
ceil(duration_minutes / 15); the scheduler computes this at start and uses it
to detect the final interval. -/
def intervalCount (d : Nat) : Nat := (d + 14) / 15

/-- Modelled from the spec: nominal interval length is 15 minutes, the final
interval of a workblock is truncated to the remaining minutes.  `k` is the
1-based interval number. -/
def intervalLen (d k : Nat) : Nat :=
  if k < intervalCount d then 15 else d - 15 * (intervalCount d - 1)

/-- Planned durations of all intervals of a workblock of `d` minutes. -/
def intervalDurations (d : Nat) : List Nat :=
  (List.range (intervalCount d)).map (fun i => intervalLen d (i + 1))

/-- Sentinel label written by the auto-away timeout. -/
def awayLabel : String := "Away from workspace"

/-- Case-insensitive label normalization used when grouping activities and
counting words (character-wise lowercasing). -/
def normLabel (s : String) : String := String.mk (s.data.map Char.toLower)

/-- One entry of a (daily or per-workblock) timeline: the aggregate timeline
data of the archive JSON schema. -/
structure VizEntry where
  workblock_id : Nat
  interval_number : Nat
  start_time : Nat
  words : String
  duration_minutes : Nat
deriving DecidableEq

/-- Modelled from the spec: the timeline entries of one workblock, in interval
order, each carrying the label or "Pending" and the planned (truncated-last)
duration. -/
def entriesOf (wb : Workblock) (ivs : List Interval) : List VizEntry :=
  ivs.map (fun i =>
    { workblock_id := wb.id
      interval_number := i.interval_number
      start_time := i.start_time
      words := i.words.getD "Pending"
      duration_minutes := intervalLen wb.duration_minutes i.interval_number })

/-- Timeline entries of a workblock paired with its interval rows. -/
def wbEntries (w : Workblock × List Interval) : List VizEntry := entriesOf w.1 w.2

/-- Chronological order on timeline entries: start time, workblock id as
tie-break. -/
def chronoLe (a b : VizEntry) : Bool :=
  a.start_time < b.start_time ||
    (a.start_time = b.start_time && a.workblock_id ≤ b.workblock_id)

/-- Stable chronological insertion: the new entry goes after existing entries
that compare less-or-equal. -/
def insertChrono (e : VizEntry) : List VizEntry → List VizEntry
  | [] => [e]
  | x :: xs => if chronoLe x e then x :: insertChrono e xs else e :: x :: xs

/-- Modelled from the spec: merge a batch of entries into a running
chronological timeline (stable, workblock id as tie-break). -/
def mergeChrono (acc : List VizEntry) (es : List VizEntry) : List VizEntry :=
  es.foldl (fun a e => insertChrono e a) acc

/-- Add `m` to the value of key `k` in an association list, appending the key
if absent (first-occurrence order is kept). -/
def bump (l : List (String × Nat)) (k : String) (m : Nat) : List (String × Nat) :=
  match l with
  | [] => [(k, m)]
  | (k', m') :: rest => if k' = k then (k', m' + m) :: rest else (k', m') :: bump rest k m

/-- Fold the activity minutes of a batch of entries into an accumulator,
grouping by case-insensitively normalized label. -/
def addActivity (acc : List (String × Nat)) (es : List VizEntry) : List (String × Nat) :=
  es.foldl (fun a e => bump a (normLabel e.words) e.duration_minutes) acc

/-- Fold the word-frequency counts of a batch of entries into an accumulator
(one count per interval, not weighted by duration). -/
def addWordFreq (acc : List (String × Nat)) (es : List VizEntry) : List (String × Nat) :=
  es.foldl (fun a e => bump a (normLabel e.words) 1) acc

/-- Daily aggregate: workblock and minute totals, merged timeline, activity
minutes per normalized label, and word-frequency counts.  Percentages are a
derived view (`activityView`). -/
structure DailyAgg where
  total_workblocks : Nat := 0
  total_minutes : Nat := 0
  timeline : List VizEntry := []
  activity_minutes : List (String × Nat) := []
  word_frequency : List (String × Nat) := []
deriving DecidableEq

/-- The empty daily aggregate, as initialized when a day opens. -/
def initAgg : DailyAgg := {}

/-- Percentage of `m` minutes out of `total`, as an exact rational. -/
def pctOf (total m : Nat) : ℚ := if total = 0 then 0 else (m : ℚ) * 100 / (total : ℚ)

/-- One row of an activity breakdown with its percentage of the total. -/
structure ActivityData where
  words : String
  total_minutes : Nat
  percentage : ℚ
deriving DecidableEq

/-- Activity breakdown of an aggregate with percentages recomputed over the
aggregate's current total. -/
def activityView (agg : DailyAgg) : List ActivityData :=
  agg.activity_minutes.map (fun p =>
    { words := p.1, total_minutes := p.2, percentage := pctOf agg.total_minutes p.2 })

/-- Sum of the activity-breakdown percentages of an aggregate. -/
def pctSum (agg : DailyAgg) : ℚ := ((activityView agg).map (fun a => a.percentage)).sum

/-- Modelled from the spec: merge one completed workblock into the running
daily aggregate — stable chronological timeline merge, summed activity
minutes, summed word counts, incremented totals.  A left-fold step. -/
def update_daily_aggregate (agg : DailyAgg) (w : Workblock × List Interval) : DailyAgg :=
  let es := wbEntries w
  { total_workblocks := agg.total_workblocks + 1
    total_minutes := agg.total_minutes + (es.map (fun e => e.duration_minutes)).sum
    timeline := mergeChrono agg.timeline es
    activity_minutes := addActivity agg.activity_minutes es
    word_frequency := addWordFreq agg.word_frequency es }

/-- Modelled from the spec: batch recomputation of a date's aggregate from the
raw rows of all its workblocks — one flat pass over every interval of every
workblock, used by archival. -/
def generate_daily_aggregate (ws : List (Workblock × List Interval)) : DailyAgg :=
  let es := ws.flatMap wbEntries
  { total_workblocks := ws.length
    total_minutes := (es.map (fun e => e.duration_minutes)).sum
    timeline := mergeChrono [] es
    activity_minutes := addActivity [] es
    word_frequency := addWordFreq [] es }

/-- Per-workblock visualization: the workblock entry of the archive JSON. -/
structure WorkblockViz where
  id : Nat
  timeline : List VizEntry
  activity_minutes : List (String × Nat)
  word_frequency : List (String × Nat)
deriving DecidableEq

/-- Modelled from the spec: timeline, activity breakdown and word frequency of
a single workblock. -/
def generate_visualization (wb : Workblock) (ivs : List Interval) : WorkblockViz :=
  let es := entriesOf wb ivs
  { id := wb.id
    timeline := es
    activity_minutes := addActivity [] es
    word_frequency := addWordFreq [] es }

/-- The serialized snapshot stored in a daily archive: per-workblock
visualizations plus the daily aggregate. -/
structure DailyVizData where
  workblocks : List WorkblockViz
  daily_aggregate : DailyAgg
deriving DecidableEq

/-- Interval rows belonging to a workblock, in creation order. -/
def intervalsOf (wid : Nat) (ivs : List Interval) : List Interval :=
  ivs.filter (fun i => i.workblock_id = wid)

/-- Modelled from the spec: workblocks feeding a date's aggregate — that
date's rows, with cancelled workblocks contributing nothing. -/
def workblocksForAggregate (d : Nat) (wbs : List Workblock) : List Workblock :=
  wbs.filter (fun w => w.date = d ∧ w.status ≠ WorkblockStatus.cancelled)

/-- Modelled from the spec: the daily aggregate of date `d`, recomputed fresh
from raw workblock and interval rows. -/
def daily_visualization (d : Nat) (wbs : List Workblock) (ivs : List Interval) : DailyAgg :=
  generate_daily_aggregate
    ((workblocksForAggregate d wbs).map (fun w => (w, intervalsOf w.id ivs)))

/-- Modelled from the spec: the full visualization snapshot of date `d` built
from raw rows (per-workblock visualizations plus the aggregate). -/
def dailyVizData (d : Nat) (wbs : List Workblock) (ivs : List Interval) : DailyVizData :=
  { workblocks :=
      (workblocksForAggregate d wbs).map (fun w => generate_visualization w (intervalsOf w.id ivs))
    daily_aggregate := daily_visualization d wbs ivs }

/-- Daily archive row: unique date, totals, serialized snapshot, archival
time. -/
structure DailyArchiveRow where
  date : Nat
  total_workblocks : Nat
  total_minutes : Nat
  visualization_data : DailyVizData
  archived_at : Nat
deriving DecidableEq

/-- Timers armed for the current interval: the interval-advance deadline and
the 10-minute auto-away deadline. -/
structure TimerInfo where
  interval_id : Nat
  advance_deadline : Nat
  away_deadline : Nat
deriving DecidableEq

/-- State owned by the scheduler: store rows plus id counters and the single
armed timer (scoped to the current interval). -/
structure SchedulerState where
  workblocks : List Workblock
  intervals : List Interval
  archives : List DailyArchiveRow
  nextWorkblockId : Nat
  nextIntervalId : Nat
  timer : Option TimerInfo
deriving DecidableEq

/-- Modelled from the spec: force-complete-and-archive step of the
day-boundary monitor applied to one workblock row — a still-active workblock
from a prior unarchived date is completed with end time `now`, and every
prior-date unarchived row gets the archived flag. -/
def rolloverWorkblock (today now : Nat) (wb : Workblock) : Workblock :=
  if wb.date < today ∧ wb.is_archived = false then
    if wb.status = WorkblockStatus.active then
      { wb with status := WorkblockStatus.completed, end_time := some now, is_archived := true }
    else { wb with is_archived := true }
  else wb

/-- Modelled from the spec: day-boundary check that runs at startup and before
every start.  Prior-date unarchived workblocks are force-completed if still
active, flagged archived, and one archive row per prior date is written from
the (force-completed) raw rows, as an atomic unit. -/
def check_and_reset (today now : Nat) (st : SchedulerState) : SchedulerState :=
  let priorDates :=
    ((st.workblocks.filter (fun w => w.date < today ∧ w.is_archived = false)).map
      (fun w => w.date)).dedup
  let rolled := st.workblocks.map (rolloverWorkblock today now)
  { st with
    workblocks := rolled
    archives := st.archives ++ priorDates.map (fun d =>
      let agg := daily_visualization d rolled st.intervals
      { date := d
        total_workblocks := agg.total_workblocks
        total_minutes := agg.total_minutes
        visualization_data := dailyVizData d rolled st.intervals
        archived_at := now }) }

/-- Whether an interval is the workblock's final interval. -/
def isLastInterval (wb : Workblock) (i : Interval) : Bool :=
  i.interval_number = intervalCount wb.duration_minutes

/-- An interval closed with a terminal status, label and end time. -/
def closeIv (s : IntervalStatus) (lbl : String) (now : Nat) (j : Interval) : Interval :=
  { j with status := s, end_time := some now, words := some lbl }

/-- The next pending interval created when a non-final interval closes. -/
def nextPendingInterval (st : SchedulerState) (i : Interval) (wb : Workblock) (now : Nat) :
    Interval :=
  { id := st.nextIntervalId
    workblock_id := wb.id
    interval_number := i.interval_number + 1
    start_time := now
    status := IntervalStatus.pending }

/-- Timers armed for the next interval: advance after min(15, remaining
minutes), auto-away after the fixed 10 minutes. -/
def nextTimers (st : SchedulerState) (i : Interval) (wb : Workblock) (now : Nat) :
    TimerInfo :=
  { interval_id := st.nextIntervalId
    advance_deadline := now + min 15 (wb.duration_minutes - 15 * i.interval_number)
    away_deadline := now + 10 }

/-- Modelled from the spec: shared pending-to-terminal completion path of
label submission and timeout.  Closes the interval with the given terminal
status and label; on the last interval completes the workblock and disarms the
timer, otherwise creates the next pending interval and arms its timers
(advance after min(15, remaining), auto-away after 10 minutes). -/
def finishInterval (st : SchedulerState) (i : Interval) (wb : Workblock)
    (stat : IntervalStatus) (label : String) (now : Nat) : SchedulerState × Bool :=
  let last := isLastInterval wb i
  let ivs := st.intervals.map (fun j =>
    if j.id = i.id then closeIv stat label now j else j)
  if last then
    ({ st with
        intervals := ivs
        workblocks := st.workblocks.map (fun w =>
          if w.id = wb.id then
            { w with status := WorkblockStatus.completed, end_time := some now }
          else w)
        timer := none }, true)
  else
    ({ st with
        intervals := ivs ++ [nextPendingInterval st i wb now]
        nextIntervalId := st.nextIntervalId + 1
        timer := some (nextTimers st i wb now) }, false)

/-- Modelled from the spec: label submission.  Empty-after-trim input is
rejected with a validation error and no state change; the race with the
timeout is a compare-and-transition on the pending status, so a submission
that finds the interval already terminal is a silent no-op (the not-found
error is reserved for an interval that does not exist).  On success stores the
trimmed, 50-character-bounded text and returns whether this closed the
workblock's final interval. -/
def submit_label (st : SchedulerState) (iid : Nat) (text : String) (now : Nat) :
    Except SchedError (SchedulerState × Bool) :=
  if strTrim text = "" then Except.error SchedError.validationError
  else
    match st.intervals.find? (fun j => j.id = iid) with
    | none => Except.error SchedError.notFoundError
    | some i =>
      if i.status = IntervalStatus.pending then
        match st.workblocks.find? (fun w => w.id = i.workblock_id) with
        | none => Except.error SchedError.notFoundError
        | some wb =>
          if wb.status = WorkblockStatus.active then
            Except.ok (finishInterval st i wb IntervalStatus.recorded
              (truncate50 (strTrim text)) now)
          else Except.ok (st, false)
      else Except.ok (st, false)

/-- Modelled from the spec: timer-driven auto-away.  A callback that finds its
interval missing, no longer pending, or its workblock no longer active
silently no-ops; otherwise the interval is closed as auto-away with the
sentinel label, with the same last-interval branching as submission. -/
def tick_timeout (st : SchedulerState) (iid : Nat) (now : Nat) : SchedulerState :=
  match st.intervals.find? (fun j => j.id = iid) with
  | none => st
  | some i =>
    if i.status = IntervalStatus.pending then
      match st.workblocks.find? (fun w => w.id = i.workblock_id) with
      | none => st
      | some wb =>
        if wb.status = WorkblockStatus.active then
          (finishInterval st i wb IntervalStatus.auto_away awayLabel now).1
        else st
    else st

/-- Modelled from the spec: start a workblock — day-boundary check first,
conflict if one is already active, then persist the new active workblock and
its first pending interval and arm the timers. -/
def start (d today now : Nat) (st : SchedulerState) :
    Except SchedError (SchedulerState × Workblock) :=
  let st0 := check_and_reset today now st
  if st0.workblocks.any (fun w => w.status = WorkblockStatus.active) then
    Except.error SchedError.conflictError
  else
    let wb : Workblock :=
      { id := st0.nextWorkblockId, date := today, start_time := now,
        duration_minutes := d, status := WorkblockStatus.active }
    let iv : Interval :=
      { id := st0.nextIntervalId, workblock_id := wb.id, interval_number := 1,
        start_time := now, status := IntervalStatus.pending }
    Except.ok ({ st0 with
      workblocks := st0.workblocks ++ [wb]
      intervals := st0.intervals ++ [iv]
      nextWorkblockId := wb.id + 1
      nextIntervalId := iv.id + 1
      timer := some { interval_id := iv.id, advance_deadline := now + min 15 d,
                      away_deadline := now + 10 } }, wb)

/-- Modelled from the spec: cancel the active workblock — close any pending
interval without recording it and synchronously disarm the timers. -/
def cancel (st : SchedulerState) (wid : Nat) (now : Nat) :
    Except SchedError SchedulerState :=
  match st.workblocks.find? (fun w => w.id = wid ∧ w.status = WorkblockStatus.active) with
  | none => Except.error SchedError.notFoundError
  | some wb =>
    Except.ok { st with
      workblocks := st.workblocks.map (fun w =>
        if w.id = wb.id then
          { w with status := WorkblockStatus.cancelled, end_time := some now }
        else w)
      intervals := st.intervals.map (fun j =>
        if j.workblock_id = wb.id ∧ j.status = IntervalStatus.pending then
          { j with end_time := some now }
        else j)
      timer := none }

/-- Modelled from the spec: Status Projector — Active if any workblock is
active, else SummaryReady if some completed, non-archived workblock of today
exists, else Idle.  Cancelled workblocks never contribute. -/
def derive_status (today : Nat) (wbs : List Workblock) : TrayStatus :=
  if wbs.any (fun w => w.status = WorkblockStatus.active) then TrayStatus.active
  else if wbs.any (fun w =>
      w.status = WorkblockStatus.completed ∧ w.is_archived = false ∧ w.date = today) then
    TrayStatus.summaryReady
  else TrayStatus.idle

/-- Archive record as the front end receives it (daily_archives row; the
snapshot is optional exactly as `visualization_data` is nullable). -/
structure ArchiveRecord where
  date : Nat
  total_workblocks : Nat
  total_minutes : Nat
  visualization_data : Option DailyVizData
deriving DecidableEq

/-- Back-end queries consumed by SummaryView.loadSummaryData. -/
structure SummaryBackend where
  get_archived_day : Nat → Option ArchiveRecord
  get_daily_visualization_data : Nat → DailyVizData
  get_workblocks_by_date : Nat → List Workblock

/-- Workblock object as displayed by the summary view. -/
structure DisplayWorkblock where
  id : Nat
  date : Nat
  status : WorkblockStatus
  is_archived : Bool
deriving DecidableEq

/-- Workblock reconstructed from an archive snapshot by SummaryView:
only the id is kept, the status is hard-coded to completed and the archived
flag to true (SummaryView.tsx, loadSummaryData). -/
def displayOfArchived (d : Nat) (w : WorkblockViz) : DisplayWorkblock :=
  { id := w.id, date := d, status := WorkblockStatus.completed, is_archived := true }

/-- Workblock row as displayed on the current-day path. -/
def displayOfRow (w : Workblock) : DisplayWorkblock :=
  { id := w.id, date := w.date, status := w.status, is_archived := w.is_archived }

/-- Result of loading the summary view. -/
structure SummaryData where
  isArchived : Bool
  vizData : DailyVizData
  workblocks : List DisplayWorkblock
deriving DecidableEq

/-- Current-day branch of SummaryView.loadSummaryData: recompute the
visualization from raw rows and list the date's non-cancelled workblocks. -/
def loadCurrentDay (b : SummaryBackend) (d : Nat) : SummaryData :=
  { isArchived := false
    vizData := b.get_daily_visualization_data d
    workblocks :=
      ((b.get_workblocks_by_date d).filter
        (fun w => w.status ≠ WorkblockStatus.cancelled)).map displayOfRow }

/-- SummaryView.loadSummaryData (SummaryView.tsx): if an archive row with a
stored snapshot exists for the date, read everything from the snapshot and
reconstruct the workblock tabs from it; otherwise recompute from raw rows. -/
def loadSummaryData (b : SummaryBackend) (targetDate : Nat) : SummaryData :=
  match b.get_archived_day targetDate with
  | some ar =>
    match ar.visualization_data with
    | some viz =>
      { isArchived := true
        vizData := viz
        workblocks := viz.workblocks.map (displayOfArchived targetDate) }
    | none => loadCurrentDay b targetDate
  | none => loadCurrentDay b targetDate

/-- Prompt-window UI state (PromptWindow component). -/
structure PromptUIState where
  words : String
  showCheckmark : Bool
  isVisible : Bool
  showSummaryReady : Bool
deriving DecidableEq

/-- Guard at the top of PromptWindow.handleSubmit: nothing is submitted
without an interval id or when the input trims to empty. -/
def promptSubmitAllowed (intervalId : Option Nat) (words : String) : Bool :=
  intervalId.isSome && !(strTrim words == "")

/-- PromptWindow state transition applied when the submit call returns: on the
last interval the window switches from the checkmark confirmation to the
summary-ready panel and stays visible; otherwise it hides. -/
def afterSubmitResult (last : Bool) (p : PromptUIState) : PromptUIState :=
  if last then { p with showSummaryReady := true, showCheckmark := false }
  else { p with isVisible := false, showCheckmark := false, words := "" }

/-- Prompt-window state right after the checkmark is shown on submit. -/
def promptAfterCheckmark : PromptUIState :=
  { words := "", showCheckmark := true, isVisible := true, showSummaryReady := false }

/-- Sample 50-minute workblock used to evaluate the aggregate scenario. -/
def wb50 : Workblock :=
  { id := 1, date := 0, start_time := 0, end_time := some 50,
    duration_minutes := 50, status := WorkblockStatus.completed }

/-- Recorded interval rows of the 50-minute workblock, labelled `a` on the
first two intervals and `b` on the rest. -/
def ivs50 (a b : String) : List Interval :=
  [ { id := 1, workblock_id := 1, interval_number := 1, start_time := 0,
      end_time := some 15, words := some a, status := IntervalStatus.recorded },
    { id := 2, workblock_id := 1, interval_number := 2, start_time := 15,
      end_time := some 30, words := some a, status := IntervalStatus.recorded },
    { id := 3, workblock_id := 1, interval_number := 3, start_time := 30,
      end_time := some 45, words := some b, status := IntervalStatus.recorded },
    { id := 4, workblock_id := 1, interval_number := 4, start_time := 45,
      end_time := some 50, words := some b, status := IntervalStatus.recorded } ]

/-- Sample active workblock (30 minutes, two intervals). -/
def sampleActiveWb : Workblock :=
  { id := 1, date := 10, start_time := 0, duration_minutes := 30,
    status := WorkblockStatus.active }

/-- Sample pending first interval of the active workblock. -/
def samplePendingIv : Interval :=
  { id := 1, workblock_id := 1, interval_number := 1, start_time := 0,
    status := IntervalStatus.pending }

/-- Sample interval already closed by the auto-away timeout. -/
def sampleTerminalIv : Interval :=
  { id := 1, workblock_id := 1, interval_number := 1, start_time := 0,
    end_time := some 10, words := some awayLabel, status := IntervalStatus.auto_away }

/-- Scheduler state whose single interval is already terminal. -/
def sampleStateTerminal : SchedulerState :=
  { workblocks := [sampleActiveWb], intervals := [sampleTerminalIv], archives := [],
    nextWorkblockId := 2, nextIntervalId := 2, timer := none }

/-- Scheduler state whose single interval is still pending. -/
def sampleStatePending : SchedulerState :=
  { workblocks := [sampleActiveWb], intervals := [samplePendingIv], archives := [],
    nextWorkblockId := 2, nextIntervalId := 2,
    timer := some { interval_id := 1, advance_deadline := 15, away_deadline := 10 } }

/-- Sample cancelled workblock. -/
def sampleCancelledWb : Workblock :=
  { id := 3, date := 10, start_time := 0, end_time := some 5,
    duration_minutes := 30, status := WorkblockStatus.cancelled }

/-- Sample completed workblock of the same date. -/
def sampleCompletedWb : Workblock :=
  { id := 4, date := 10, start_time := 40, end_time := some 70,
    duration_minutes := 30, status := WorkblockStatus.completed }

/-- Interval of the cancelled workblock, closed without recording. -/
def sampleIvCancelled : Interval :=
  { id := 7, workblock_id := 3, interval_number := 1, start_time := 0,
    end_time := some 5, status := IntervalStatus.pending }

/-- Recorded interval of the completed workblock. -/
def sampleIvDone : Interval :=
  { id := 8, workblock_id := 4, interval_number := 1, start_time := 40,
    end_time := some 55, words := some "coding", status := IntervalStatus.recorded }

/-- Workblock left active on a prior calendar date. -/
def samplePriorWb : Workblock :=
  { id := 1, date := 3, start_time := 0, duration_minutes := 60,
    status := WorkblockStatus.active }

/-- Scheduler state holding a still-active workblock from a prior date. -/
def samplePriorState : SchedulerState :=
  { workblocks := [samplePriorWb], intervals := [], archives := [],
    nextWorkblockId := 2, nextIntervalId := 1, timer := none }

/-- Sample per-workblock snapshot entry. -/
def sampleWbViz : WorkblockViz :=
  { id := 1, timeline := [], activity_minutes := [("coding", 30)],
    word_frequency := [("coding", 2)] }

/-- Second snapshot entry (say, from a workblock cancelled before archival —
the snapshot keeps no status). -/
def sampleWbViz2 : WorkblockViz :=
  { id := 2, timeline := [], activity_minutes := [], word_frequency := [] }

/-- Sample archived visualization snapshot. -/
def sampleSnapshot : DailyVizData :=
  { workblocks := [sampleWbViz, sampleWbViz2], daily_aggregate := initAgg }

/-- Sample archive row for date 5 carrying the snapshot. -/
def sampleArchiveRecord : ArchiveRecord :=
  { date := 5, total_workblocks := 2, total_minutes := 60,
    visualization_data := some sampleSnapshot }

/-- Backend whose date 5 is archived; raw queries return nothing. -/
def backendWithArchive : SummaryBackend :=
  { get_archived_day := fun d => if d = 5 then some sampleArchiveRecord else none
    get_daily_visualization_data := fun _ => { workblocks := [], daily_aggregate := initAgg }
    get_workblocks_by_date := fun _ => [] }

/-- Backend with the same archives but entirely different raw-row data. -/
def backendAltRaw : SummaryBackend :=
  { get_archived_day := fun d => if d = 5 then some sampleArchiveRecord else none
    get_daily_visualization_data := fun _ => sampleSnapshot
    get_workblocks_by_date := fun _ => [sampleCancelledWb, sampleCompletedWb] }

/-! ## Helper lemmas -/

theorem sum_map_range_const (n v : Nat) :
    ((List.range n).map (fun _ => v)).sum = n * v := by
  induction n with
  | zero => simp
  | succ k ih => rw [List.range_succ, List.map_append, List.sum_append, ih]; simp [Nat.succ_mul]

theorem intervalDurations_split (d : Nat) (hd : 0 < d) :
    intervalDurations d =
      ((List.range (intervalCount d - 1)).map (fun _ => 15)) ++
        [d - 15 * (intervalCount d - 1)] := by
  have hc : 0 < intervalCount d := by
    unfold intervalCount; omega
  have hc1 : intervalCount d = (intervalCount d - 1) + 1 := by omega
  rw [intervalDurations, hc1, List.range_succ, List.map_append]
  congr 1
  · apply List.map_congr_left
    intro i hi
    have : i < intervalCount d - 1 := List.mem_range.mp hi
    rw [intervalLen, if_pos (by omega)]
  · have hlast : intervalLen d ((intervalCount d - 1) + 1) = d - 15 * (intervalCount d - 1) := by
      rw [intervalLen, if_neg (by omega)]
    simp [hlast]

theorem pctSum_eq (agg : DailyAgg) :
    pctSum agg = (agg.activity_minutes.map (fun p => pctOf agg.total_minutes p.2)).sum := by
  unfold pctSum activityView
  rw [List.map_map]
  exact congrArg List.sum (List.map_congr_left (fun p _ => rfl))

/-- Claim C2: for every workblock of positive declared duration `d`, the
interval layout the scheduler computes at start has ceil(d/15) intervals,
their durations sum to `d`, the last interval lasts `d mod 15` minutes (15
when `d` is divisible by 15), and every earlier interval lasts exactly 15
minutes. -/
theorem C2_interval_layout (d : Nat) (hd : 0 < d) :
    (intervalDurations d).length = d / 15 + (if d % 15 = 0 then 0 else 1) ∧
    (intervalDurations d).sum = d ∧
    (intervalDurations d).getLast? = some (if d % 15 = 0 then 15 else d % 15) ∧
    (∀ k, k + 1 < (intervalDurations d).length → (intervalDurations d).getD k 0 = 15) := by
  have hsplit := intervalDurations_split d hd
  have hlen : (intervalDurations d).length = intervalCount d := by
    simp [intervalDurations]
  refine ⟨?_, ?_, ?_, ?_⟩
  · rw [hlen]; unfold intervalCount
    by_cases h : d % 15 = 0
    · rw [if_pos h]; omega
    · rw [if_neg h]; omega
  · rw [hsplit, List.sum_append, sum_map_range_const]
    simp only [List.sum_cons, List.sum_nil]
    unfold intervalCount; omega
  · rw [hsplit, List.getLast?_concat]
    simp only [Option.some.injEq]
    unfold intervalCount
    by_cases h : d % 15 = 0
    · rw [if_pos h]; omega
    · rw [if_neg h]; omega
  · intro k hk
    have hk2 : k < (intervalDurations d).length := by omega
    rw [List.getD_eq_getElem _ _ hk2]
    rw [hlen] at hk
    simp only [intervalDurations, List.getElem_map, List.getElem_range]
    rw [intervalLen, if_pos (by omega)]

theorem C2_interval_layout_witness :
    0 < 50 ∧ (intervalDurations 50).sum = 50 ∧
    (intervalDurations 50).getLast? = some 5 := by
  have h := C2_interval_layout 50 (by decide)
  refine ⟨by decide, h.2.1, ?_⟩
  simpa using h.2.2.1

/-- Claim C3 counterexample: a 50-minute workblock gets ceil(50/15) = 4
intervals of 15, 15, 15 and 5 minutes under the spec's own interval-count and
truncation rule, not three intervals of 15, 15 and 20 minutes. -/
theorem C3_counterexample :
    intervalCount 50 = 4 ∧ intervalDurations 50 = [15, 15, 15, 5] ∧
    intervalDurations 50 ≠ [15, 15, 20] := by decide

/-- Claim C3 (amended): start(50) plans four intervals of 15, 15, 15 and 5
minutes, and once all four are recorded with two distinct labels the daily
aggregate's activity-breakdown percentages sum to exactly 100. -/
theorem C3_amended_percentages (a b : String) (hab : normLabel a ≠ normLabel b) :
    intervalDurations 50 = [15, 15, 15, 5] ∧
    pctSum (generate_daily_aggregate [(wb50, ivs50 a b)]) = 100 := by
  have h1 : (generate_daily_aggregate [(wb50, ivs50 a b)]).total_minutes = 50 := by
    simp [generate_daily_aggregate, wbEntries, entriesOf, ivs50, wb50,
      intervalLen, intervalCount]
  have h2 : (generate_daily_aggregate [(wb50, ivs50 a b)]).activity_minutes =
      [(normLabel a, 30), (normLabel b, 20)] := by
    simp [generate_daily_aggregate, wbEntries, entriesOf, ivs50, wb50,
      addActivity, bump, hab, intervalLen, intervalCount]
  refine ⟨by decide, ?_⟩
  rw [pctSum_eq, h2, h1]
  simp only [List.map_cons, List.map_nil, List.sum_cons, List.sum_nil, pctOf]
  norm_num

theorem C3_amended_percentages_witness :
    normLabel "coding" ≠ normLabel "meeting" ∧
    pctSum (generate_daily_aggregate [(wb50, ivs50 "coding" "meeting")]) = 100 :=
  ⟨by decide, (C3_amended_percentages "coding" "meeting" (by decide)).2⟩

theorem generate_append (ws : List (Workblock × List Interval))
    (w : Workblock × List Interval) :
    generate_daily_aggregate (ws ++ [w]) =
      update_daily_aggregate (generate_daily_aggregate ws) w := by
  simp [generate_daily_aggregate, update_daily_aggregate, mergeChrono, addActivity,
    addWordFreq, List.foldl_append]

/-- Claim C4: the batch aggregate of a date's workblocks equals the left fold
of the incremental merge step over the same workblocks in completion order,
starting from the initial aggregate — including the derived
percentage view. -/
theorem C4_generate_equals_fold (ws : List (Workblock × List Interval)) :
    generate_daily_aggregate ws = List.foldl update_daily_aggregate initAgg ws ∧
    activityView (generate_daily_aggregate ws) =
      activityView (List.foldl update_daily_aggregate initAgg ws) := by
  have h : generate_daily_aggregate ws = List.foldl update_daily_aggregate initAgg ws := by
    induction ws using List.reverseRecOn with
    | nil => rfl
    | append_singleton xs x ih =>
      rw [generate_append, ih, List.foldl_append]
      simp
  exact ⟨h, by rw [h]⟩

/-- Claim C1: the pending-to-terminal transition of an interval happens at
most once — on an interval that is already terminal the timeout callback
returns the state unchanged, and a well-formed submission succeeds as a no-op:
neither alters the interval's status, label or end time, neither errors and
neither writes. -/
theorem C1_terminal_race_noop (st : SchedulerState) (iid now : Nat) (text : String)
    (i : Interval)
    (hfind : st.intervals.find? (fun j => j.id = iid) = some i)
    (hterm : i.status ≠ IntervalStatus.pending) :
    tick_timeout st iid now = st ∧
    (strTrim text ≠ "" → submit_label st iid text now = Except.ok (st, false)) := by
  constructor
  · simp [tick_timeout, hfind, hterm]
  · intro hne
    simp [submit_label, hfind, hterm, hne]

theorem C1_terminal_race_noop_witness :
    sampleStateTerminal.intervals.find? (fun j => j.id = 1) = some sampleTerminalIv ∧
    tick_timeout sampleStateTerminal 1 99 = sampleStateTerminal ∧
    submit_label sampleStateTerminal 1 "reading" 99 =
      Except.ok (sampleStateTerminal, false) := by
  have h := C1_terminal_race_noop sampleStateTerminal 1 99 "reading" sampleTerminalIv
    (by decide) (by decide)
  exact ⟨by decide, h.1, h.2 (by decide)⟩

theorem finishInterval_snd (st : SchedulerState) (i : Interval) (wb : Workblock)
    (s : IntervalStatus) (lbl : String) (now : Nat) :
    (finishInterval st i wb s lbl now).2 = isLastInterval wb i := by
  by_cases h : isLastInterval wb i <;> simp [finishInterval, h]

theorem finishInterval_intervals_eq (st : SchedulerState) (i : Interval) (wb : Workblock)
    (s : IntervalStatus) (lbl : String) (now : Nat) :
    ∃ rest : List Interval,
      (finishInterval st i wb s lbl now).1.intervals =
        st.intervals.map (fun j => if j.id = i.id then closeIv s lbl now j else j)
          ++ rest := by
  by_cases h : isLastInterval wb i
  · exact ⟨[], by simp [finishInterval, h]⟩
  · exact ⟨[nextPendingInterval st i wb now], by simp [finishInterval, h]⟩

/-- Claim C6: a label whose text trims to empty is rejected with a validation
error (no state is returned, hence nothing is mutated and no timer disarmed),
and the prompt window does not even submit it; a non-empty submission on a
pending interval stores the trimmed text, bounded to 50 characters (the
trimmed text itself whenever it fits the bound). -/
theorem C6_validation_and_label_bound (st : SchedulerState) (iid now : Nat)
    (text : String) (i : Interval) (wb : Workblock)
    (hfind : st.intervals.find? (fun j => j.id = iid) = some i)
    (hpend : i.status = IntervalStatus.pending)
    (hfwb : st.workblocks.find? (fun w => w.id = i.workblock_id) = some wb)
    (hact : wb.status = WorkblockStatus.active) :
    (∀ t, strTrim t = "" →
      submit_label st iid t now = Except.error SchedError.validationError ∧
      promptSubmitAllowed (some iid) t = false) ∧
    (strTrim text ≠ "" →
      ∃ st₁, submit_label st iid text now = Except.ok (st₁, isLastInterval wb i) ∧
        closeIv IntervalStatus.recorded (truncate50 (strTrim text)) now i ∈ st₁.intervals ∧
        (truncate50 (strTrim text)).length ≤ 50 ∧
        ((strTrim text).length ≤ 50 → truncate50 (strTrim text) = strTrim text)) := by
  constructor
  · intro t ht
    constructor
    · simp [submit_label, ht]
    · simp [promptSubmitAllowed, ht]
  · intro hne
    refine ⟨(finishInterval st i wb IntervalStatus.recorded
      (truncate50 (strTrim text)) now).1, ?_, ?_, ?_, ?_⟩
    · simp [submit_label, hfind, hpend, hfwb, hact, hne, Prod.ext_iff, finishInterval_snd]
    · obtain ⟨rest, hrest⟩ := finishInterval_intervals_eq st i wb IntervalStatus.recorded
        (truncate50 (strTrim text)) now
      rw [hrest]
      refine List.mem_append_left _
        (List.mem_map.mpr ⟨i, List.mem_of_find?_eq_some hfind, ?_⟩)
      simp [closeIv]
    · have hlen : (truncate50 (strTrim text)).length =
          min 50 (strTrim text).data.length := by
        show ((strTrim text).data.take 50).length = _
        exact List.length_take _ _
      omega
    · intro hle
      have hdata : (strTrim text).data.length ≤ 50 := hle
      simp [truncate50, List.take_of_length_le hdata]

theorem C6_validation_and_label_bound_witness :
    submit_label sampleStatePending 1 "   " 0 = Except.error SchedError.validationError ∧
    promptSubmitAllowed (some 1) "   " = false ∧
    (truncate50 (strTrim " focus ")).length ≤ 50 ∧
    truncate50 (strTrim " focus ") = strTrim " focus " := by
  have h := C6_validation_and_label_bound sampleStatePending 1 0 " focus "
    samplePendingIv sampleActiveWb (by decide) (by decide) (by decide) (by decide)
  obtain ⟨st₁, heq, hmem, hlen, hid⟩ := h.2 (by decide)
  exact ⟨(h.1 "   " (by decide)).1, (h.1 "   " (by decide)).2, hlen, hid (by decide)⟩

/-- Claim C8: a successful submission returns `is_last_interval` true exactly
when the submitted interval is the workblock's final one; when true the
workblock is completed (end time set, timer disarmed) and the prompt window
moves from the checkmark confirmation to the summary-ready panel while
remaining visible; when false the next pending interval is created and its
timer armed, and the prompt window hides. -/
theorem C8_last_interval_flag (st : SchedulerState) (iid now : Nat)
    (text : String) (i : Interval) (wb : Workblock)
    (hfind : st.intervals.find? (fun j => j.id = iid) = some i)
    (hpend : i.status = IntervalStatus.pending)
    (hfwb : st.workblocks.find? (fun w => w.id = i.workblock_id) = some wb)
    (hact : wb.status = WorkblockStatus.active)
    (hne : strTrim text ≠ "") :
    ∃ st₁, submit_label st iid text now = Except.ok (st₁, isLastInterval wb i) ∧
      (isLastInterval wb i = true ↔
        i.interval_number = intervalCount wb.duration_minutes) ∧
      (isLastInterval wb i = true →
        (∃ w₁ ∈ st₁.workblocks, w₁.id = wb.id ∧
          w₁.status = WorkblockStatus.completed ∧ w₁.end_time = some now) ∧
        st₁.timer = none) ∧
      (isLastInterval wb i = false →
        (∃ n₁ ∈ st₁.intervals, n₁.workblock_id = wb.id ∧
          n₁.interval_number = i.interval_number + 1 ∧
          n₁.status = IntervalStatus.pending) ∧
        (∃ ti, st₁.timer = some ti ∧ ti.interval_id = st.nextIntervalId)) ∧
      (∀ p : PromptUIState,
        (afterSubmitResult true p).showSummaryReady = true ∧
        (afterSubmitResult true p).showCheckmark = false ∧
        (afterSubmitResult true p).isVisible = p.isVisible ∧
        (afterSubmitResult false p).isVisible = false) := by
  refine ⟨(finishInterval st i wb IntervalStatus.recorded
    (truncate50 (strTrim text)) now).1, ?_, ?_, ?_, ?_, ?_⟩
  · simp [submit_label, hfind, hpend, hfwb, hact, hne, Prod.ext_iff, finishInterval_snd]
  · simp [isLastInterval]
  · intro hl
    constructor
    · refine ⟨{ wb with status := WorkblockStatus.completed, end_time := some now },
        ?_, by simp, by simp, by simp⟩
      simp only [finishInterval, hl, if_true]
      exact List.mem_map.mpr ⟨wb, List.mem_of_find?_eq_some hfwb, by simp⟩
    · simp [finishInterval, hl]
  · intro hl
    constructor
    · refine ⟨nextPendingInterval st i wb now, ?_, by simp [nextPendingInterval],
        by simp [nextPendingInterval], by simp [nextPendingInterval]⟩
      simp [finishInterval, hl]
    · refine ⟨nextTimers st i wb now, ?_, by simp [nextTimers]⟩
      simp [finishInterval, hl]
  · intro p
    exact ⟨by simp [afterSubmitResult], by simp [afterSubmitResult],
      by simp [afterSubmitResult], by simp [afterSubmitResult]⟩

theorem C8_last_interval_flag_witness :
    (isLastInterval sampleActiveWb samplePendingIv = true ↔
      samplePendingIv.interval_number = intervalCount sampleActiveWb.duration_minutes) ∧
    (afterSubmitResult true promptAfterCheckmark).showSummaryReady = true ∧
    (afterSubmitResult false promptAfterCheckmark).isVisible = false := by
  obtain ⟨st₁, heq, hiff, hlast, hnotlast, hui⟩ :=
    C8_last_interval_flag sampleStatePending 1 7 "emails" samplePendingIv
      sampleActiveWb (by decide) (by decide) (by decide) (by decide) (by decide)
  exact ⟨hiff, (hui _).1, (hui _).2.2.2⟩

theorem mem_insertChrono {e x : VizEntry} {l : List VizEntry} :
    x ∈ insertChrono e l ↔ x = e ∨ x ∈ l := by
  induction l with
  | nil => simp [insertChrono]
  | cons y ys ih =>
    by_cases h : chronoLe y e
    · rw [insertChrono, if_pos h]
      simp only [List.mem_cons, ih]
      tauto
    · rw [insertChrono, if_neg h]
      simp only [List.mem_cons]

theorem mem_mergeChrono {x : VizEntry} {acc es : List VizEntry} :
    x ∈ mergeChrono acc es ↔ x ∈ acc ∨ x ∈ es := by
  induction es generalizing acc with
  | nil => simp [mergeChrono]
  | cons e es ih =>
    show x ∈ mergeChrono (insertChrono e acc) es ↔ _
    rw [ih]
    simp only [mem_insertChrono, List.mem_cons]
    tauto

theorem mem_timeline_generate {x : VizEntry} {ws : List (Workblock × List Interval)} :
    x ∈ (generate_daily_aggregate ws).timeline ↔ x ∈ ws.flatMap wbEntries := by
  simp [generate_daily_aggregate, mem_mergeChrono]

theorem filter_erase_of_not {α : Type} [DecidableEq α] (p : α → Bool) (l : List α)
    (a : α) (ha : p a = false) : (l.erase a).filter p = l.filter p := by
  induction l with
  | nil => rfl
  | cons x xs ih =>
    by_cases hx : x = a
    · subst hx
      simp [List.erase_cons, List.filter_cons, ha]
    · simp only [List.erase_cons, beq_iff_eq, if_neg hx]
      by_cases hp : p x <;> simp [List.filter_cons, hp, ih]

theorem any_active_filter (wbs : List Workblock) :
    (wbs.filter (fun w => w.status ≠ WorkblockStatus.cancelled)).any
      (fun w => w.status = WorkblockStatus.active) =
      wbs.any (fun w => w.status = WorkblockStatus.active) := by
  induction wbs with
  | nil => rfl
  | cons w ws ih =>
    rw [List.filter_cons]
    by_cases h : w.status = WorkblockStatus.cancelled
    · rw [if_neg (by simp [h]), ih, List.any_cons]
      simp [h]
    · rw [if_pos (by simp [h]), List.any_cons, List.any_cons, ih]

theorem any_completed_filter (today : Nat) (wbs : List Workblock) :
    (wbs.filter (fun w => w.status ≠ WorkblockStatus.cancelled)).any (fun w =>
      w.status = WorkblockStatus.completed ∧ w.is_archived = false ∧ w.date = today) =
      wbs.any (fun w =>
        w.status = WorkblockStatus.completed ∧ w.is_archived = false ∧ w.date = today) := by
  induction wbs with
  | nil => rfl
  | cons w ws ih =>
    rw [List.filter_cons]
    by_cases h : w.status = WorkblockStatus.cancelled
    · rw [if_neg (by simp [h]), ih, List.any_cons]
      simp [h]
    · rw [if_pos (by simp [h]), List.any_cons, List.any_cons, ih]

/-- Claim C5: a cancelled workblock contributes nothing — the Status
Projector's answer is unchanged when cancelled workblocks are dropped (so they
never cause SummaryReady), no timeline entry of the date's aggregate carries a
cancelled workblock's id (given distinct row ids), and removing the cancelled
row leaves the whole aggregate — minutes, breakdown, counts — untouched. -/
theorem C5_cancelled_excluded (today d : Nat) (wbs : List Workblock)
    (ivs : List Interval) (wb : Workblock)
    (hmem : wb ∈ wbs) (hc : wb.status = WorkblockStatus.cancelled)
    (hnd : (wbs.map (fun w => w.id)).Nodup) :
    derive_status today (wbs.filter (fun w => w.status ≠ WorkblockStatus.cancelled)) =
      derive_status today wbs ∧
    (∀ e ∈ (daily_visualization d wbs ivs).timeline, e.workblock_id ≠ wb.id) ∧
    daily_visualization d (wbs.erase wb) ivs = daily_visualization d wbs ivs := by
  refine ⟨?_, ?_, ?_⟩
  · unfold derive_status
    rw [any_active_filter, any_completed_filter]
  · intro e he
    rw [daily_visualization] at he
    have h1 := mem_timeline_generate.mp he
    obtain ⟨pr, hpr, hepr⟩ := List.mem_flatMap.mp h1
    obtain ⟨w1, hw1, rfl⟩ := List.mem_map.mp hpr
    obtain ⟨iv, hiv, rfl⟩ := List.mem_map.mp hepr
    have hw1' := List.mem_filter.mp hw1
    have hw1nc : w1.status ≠ WorkblockStatus.cancelled := by
      have h2 := hw1'.2
      simp only [decide_eq_true_eq] at h2
      exact h2.2
    intro heq
    simp only at heq
    have hww : w1 = wb := List.inj_on_of_nodup_map hnd hw1'.1 hmem heq
    exact hw1nc (hww ▸ hc)
  · unfold daily_visualization workblocksForAggregate
    rw [filter_erase_of_not _ _ _ (by simp [hc])]

theorem C5_cancelled_excluded_witness :
    sampleCancelledWb ∈ [sampleCancelledWb, sampleCompletedWb] ∧
    derive_status 10
        ([sampleCancelledWb, sampleCompletedWb].filter
          (fun w => w.status ≠ WorkblockStatus.cancelled)) =
      derive_status 10 [sampleCancelledWb, sampleCompletedWb] ∧
    daily_visualization 10 ([sampleCancelledWb, sampleCompletedWb].erase sampleCancelledWb)
        [sampleIvCancelled, sampleIvDone] =
      daily_visualization 10 [sampleCancelledWb, sampleCompletedWb]
        [sampleIvCancelled, sampleIvDone] := by
  have h := C5_cancelled_excluded 10 10 [sampleCancelledWb, sampleCompletedWb]
    [sampleIvCancelled, sampleIvDone] sampleCancelledWb
    (by decide) (by decide) (by decide)
  exact ⟨by decide, h.1, h.2.2⟩

/-- Claim C7: the day-boundary check force-completes a prior-date workblock
that is still active (status completed, end time set) before archiving it, no
workblock is dropped by the rollover, an archive row is written for the prior
date, and afterwards every prior-date workblock carries the archived flag. -/
theorem C7_day_rollover (st : SchedulerState) (today now : Nat) (wb : Workblock)
    (hmem : wb ∈ st.workblocks) (hprior : wb.date < today)
    (hunarch : wb.is_archived = false) :
    (check_and_reset today now st).workblocks.length = st.workblocks.length ∧
    (∃ wb₁ ∈ (check_and_reset today now st).workblocks,
      wb₁.id = wb.id ∧ wb₁.date = wb.date ∧ wb₁.is_archived = true ∧
      (wb.status = WorkblockStatus.active →
        wb₁.status = WorkblockStatus.completed ∧ wb₁.end_time = some now) ∧
      (wb.status ≠ WorkblockStatus.active →
        wb₁.status = wb.status ∧ wb₁.end_time = wb.end_time)) ∧
    (∃ ar ∈ (check_and_reset today now st).archives, ar.date = wb.date) ∧
    (∀ wb₂ ∈ (check_and_reset today now st).workblocks,
      wb₂.date < today → wb₂.is_archived = true) := by
  have hwbs : (check_and_reset today now st).workblocks =
      st.workblocks.map (rolloverWorkblock today now) := rfl
  have hro : rolloverWorkblock today now wb =
      if wb.status = WorkblockStatus.active then
        { wb with status := WorkblockStatus.completed, end_time := some now, is_archived := true }
      else { wb with is_archived := true } := by
    rw [rolloverWorkblock, if_pos ⟨hprior, hunarch⟩]
  refine ⟨?_, ?_, ?_, ?_⟩
  · rw [hwbs, List.length_map]
  · refine ⟨rolloverWorkblock today now wb, ?_, ?_, ?_, ?_, ?_, ?_⟩
    · rw [hwbs]
      exact List.mem_map_of_mem _ hmem
    · by_cases hs : wb.status = WorkblockStatus.active
      · rw [hro, if_pos hs]
      · rw [hro, if_neg hs]
    · by_cases hs : wb.status = WorkblockStatus.active
      · rw [hro, if_pos hs]
      · rw [hro, if_neg hs]
    · by_cases hs : wb.status = WorkblockStatus.active
      · rw [hro, if_pos hs]
      · rw [hro, if_neg hs]
    · intro hs
      rw [hro, if_pos hs]
      exact ⟨rfl, rfl⟩
    · intro hs
      rw [hro, if_neg hs]
      exact ⟨rfl, rfl⟩
  · have hd : wb.date ∈ ((st.workblocks.filter
        (fun w => w.date < today ∧ w.is_archived = false)).map (fun w => w.date)).dedup :=
      List.mem_dedup.mpr (List.mem_map.mpr
        ⟨wb, List.mem_filter.mpr ⟨hmem, by simp [hprior, hunarch]⟩, rfl⟩)
    exact ⟨_, List.mem_append_right _ (List.mem_map_of_mem _ hd), rfl⟩
  · intro wb₂ h2 hd2
    rw [hwbs] at h2
    obtain ⟨w0, hw0, rfl⟩ := List.mem_map.mp h2
    by_cases hp : w0.date < today ∧ w0.is_archived = false
    · by_cases hs : w0.status = WorkblockStatus.active <;>
        simp [rolloverWorkblock, hp, hs]
    · have heq0 : rolloverWorkblock today now w0 = w0 := by
        rw [rolloverWorkblock, if_neg hp]
      rw [heq0] at hd2 ⊢
      cases hb : w0.is_archived
      · exact absurd ⟨hd2, hb⟩ hp
      · rfl

theorem C7_day_rollover_witness :
    samplePriorWb ∈ samplePriorState.workblocks ∧ samplePriorWb.date < 4 ∧
    samplePriorWb.is_archived = false ∧
    (check_and_reset 4 100 samplePriorState).workblocks.length =
      samplePriorState.workblocks.length := by
  have h := C7_day_rollover samplePriorState 4 100 samplePriorWb
    (by decide) (by decide) (by decide)
  exact ⟨by decide, by decide, by decide, h.1⟩

/-- Claim C9: when an archive row with a stored snapshot exists for a date,
the summary view reads everything from that snapshot — the result does not
depend on the raw-row queries at all — and only for a date with no usable
archive does it recompute the visualization from raw rows. -/
theorem C9_archive_read_only (b₁ b₂ : SummaryBackend) (d : Nat)
    (harch : b₂.get_archived_day d = b₁.get_archived_day d) :
    (∀ ar viz, b₁.get_archived_day d = some ar → ar.visualization_data = some viz →
      loadSummaryData b₁ d = loadSummaryData b₂ d ∧
      (loadSummaryData b₁ d).isArchived = true ∧
      (loadSummaryData b₁ d).vizData = viz) ∧
    (∀ ar, b₁.get_archived_day d = some ar → ar.visualization_data = none →
      (loadSummaryData b₁ d).isArchived = false ∧
      (loadSummaryData b₁ d).vizData = b₁.get_daily_visualization_data d) ∧
    (b₁.get_archived_day d = none →
      (loadSummaryData b₁ d).isArchived = false ∧
      (loadSummaryData b₁ d).vizData = b₁.get_daily_visualization_data d) := by
  refine ⟨?_, ?_, ?_⟩
  · intro ar viz h1 h2
    refine ⟨?_, ?_, ?_⟩ <;> simp [loadSummaryData, h1, h2, harch]
  · intro ar h1 h2
    constructor <;> simp [loadSummaryData, loadCurrentDay, h1, h2]
  · intro h1
    constructor <;> simp [loadSummaryData, loadCurrentDay, h1]

theorem C9_archive_read_only_witness :
    backendAltRaw.get_archived_day 5 = backendWithArchive.get_archived_day 5 ∧
    loadSummaryData backendWithArchive 5 = loadSummaryData backendAltRaw 5 ∧
    (loadSummaryData backendWithArchive 5).isArchived = true := by
  have h := C9_archive_read_only backendWithArchive backendAltRaw 5 rfl
  have h2 := h.1 sampleArchiveRecord sampleSnapshot rfl rfl
  exact ⟨rfl, h2.1, h2.2.1⟩

/-- Claim C10: in the archived branch the summary view rebuilds each workblock
from the snapshot keeping only its id — status is hard-coded to completed and
the archived flag to true — so a cancelled workblock in the snapshot is
displayed exactly like a completed one. -/
theorem C10_archive_status_flattened (b : SummaryBackend) (d : Nat)
    (ar : ArchiveRecord) (viz : DailyVizData)
    (h1 : b.get_archived_day d = some ar) (h2 : ar.visualization_data = some viz) :
    (loadSummaryData b d).workblocks = viz.workblocks.map (displayOfArchived d) ∧
    (∀ w ∈ (loadSummaryData b d).workblocks,
      w.status = WorkblockStatus.completed ∧ w.is_archived = true) ∧
    (∀ wv : WorkblockViz, displayOfArchived d wv =
      { id := wv.id, date := d, status := WorkblockStatus.completed, is_archived := true }) := by
  have hw : (loadSummaryData b d).workblocks = viz.workblocks.map (displayOfArchived d) := by
    simp [loadSummaryData, h1, h2]
  refine ⟨hw, ?_, fun wv => rfl⟩
  intro w hmem
  rw [hw] at hmem
  obtain ⟨wv, hwv, rfl⟩ := List.mem_map.mp hmem
  exact ⟨rfl, rfl⟩

theorem C10_archive_status_flattened_witness :
    backendWithArchive.get_archived_day 5 = some sampleArchiveRecord ∧
    (loadSummaryData backendWithArchive 5).workblocks =
      sampleSnapshot.workblocks.map (displayOfArchived 5) := by
  have h := C10_archive_status_flattened backendWithArchive 5 sampleArchiveRecord
    sampleSnapshot rfl rfl
  exact ⟨rfl, h.1⟩

end Log15
